import Mathlib

/-!
Verification of the node-sops secrets manager (TypeScript) against its
specification, via a shallow embedding in Lean.

Conventions of the embedding:
- TS strings are modelled as lists of natural numbers: a plaintext string
  stands for its UTF-8 byte sequence, and base64 text for its ASCII char
  codes. JSON document keys (claim C5) use Lean `String`.
- The cryptographic primitives the code calls through the Node `crypto`
  module (SHA-256, AES-256-GCM, base64 codecs of `Buffer`) are not part of
  the repository; they are implemented here concretely, following their
  standards (FIPS 180-4, FIPS 197, NIST SP 800-38D) and the documented
  Node semantics (lenient base64 decoding, GCM tag-length validation,
  OpenSSL error messages). The implementations were checked against the
  published test vectors (SHA-256 of "abc", the FIPS-197 AES-256 example,
  and the NIST AES-256-GCM zero-key vectors).
- Randomness (the 12-byte IV of `encrypt`, the generated key of
  `initialize`) is passed in as an explicit argument.
- Filesystem state (claims C6, C8, C9) is an explicit association list of
  path / (content, mode) pairs threaded through the operations.
-/

namespace NodeSops

/-! Base64, Node `Buffer` style: bytes and char codes are `Nat`, decoding is
lenient (characters outside the alphabet, including padding, are skipped). -/

/-- Char code of the base64 digit with value `n` (A-Z, a-z, 0-9, +, /). -/
def b64char (n : Nat) : Nat :=
  if n < 26 then 65 + n
  else if n < 52 then 97 + (n - 26)
  else if n < 62 then 48 + (n - 52)
  else if n = 62 then 43 else 47

/-- Value of a base64 digit char code; 64 marks characters outside the
alphabet (including the padding char 61, i.e. =). -/
def b64val (c : Nat) : Nat :=
  if 65 ≤ c ∧ c ≤ 90 then c - 65
  else if 97 ≤ c ∧ c ≤ 122 then (c - 97) + 26
  else if 48 ≤ c ∧ c ≤ 57 then (c - 48) + 52
  else if c = 43 then 62
  else if c = 47 then 63
  else 64

/-- A char code that the lenient decoder keeps (valid base64 alphabet). -/
def isB64Char (c : Nat) : Bool := b64val c < 64

/-- Standard base64 encoding of a byte list, with padding (the format
produced by Buffer.toString of Node). -/
def b64encode : List Nat → List Nat
  | [] => []
  | [a] => [b64char (a / 4), b64char ((a % 4) * 16), 61, 61]
  | [a, b] => [b64char (a / 4), b64char ((a % 4) * 16 + b / 16), b64char ((b % 16) * 4), 61]
  | a :: b :: c :: rest =>
      b64char (a / 4) :: b64char ((a % 4) * 16 + b / 16) ::
      b64char ((b % 16) * 4 + c / 64) :: b64char (c % 64) :: b64encode rest

/-- Decode a stream of base64 digit values: groups of four give three bytes,
a trailing group of three gives two bytes, of two gives one byte, and a
single leftover digit is dropped (Node semantics). -/
def b64decodeClean : List Nat → List Nat
  | w :: x :: y :: z :: rest =>
      (w * 4 + x / 16) :: ((x % 16) * 16 + y / 4) :: ((y % 4) * 64 + z) :: b64decodeClean rest
  | [w, x, y] => [w * 4 + x / 16, (x % 16) * 16 + y / 4]
  | [w, x] => [w * 4 + x / 16]
  | _ => []

/-- Node-style lenient base64 decoding (Buffer.from with base64): invalid
characters are skipped, then the digit stream is decoded. -/
def b64decode (s : List Nat) : List Nat :=
  b64decodeClean ((s.filter isB64Char).map b64val)

/-! SHA-256 (FIPS 180-4), used by deriveKey through createHash of Node. -/

/-- Reduction to a 32-bit word. -/
def w32 (x : Nat) : Nat := x % 4294967296

/-- Right rotation of a 32-bit word. -/
def rotr32 (n x : Nat) : Nat := w32 ((x >>> n) ||| (x <<< (32 - n)))

/-- SHA-256 round constants (FIPS 180-4, in decimal): the first 32 bits of
the fractional parts of the cube roots of the first 64 primes, the first
being 0x428a2f98 = 1116352408. -/
def shaK : List Nat := [
  1116352408, 1899447441, 3049323471, 3921009573, 961987163, 1508970993,
  2453635748, 2870763221, 3624381080, 310598401, 607225278, 1426881987,
  1925078388, 2162078206, 2614888103, 3248222580, 3835390401, 4022224774,
  264347078, 604807628, 770255983, 1249150122, 1555081692, 1996064986,
  2554220882, 2821834349, 2952996808, 3210313671, 3336571891, 3584528711,
  113926993, 338241895, 666307205, 773529912, 1294757372, 1396182291,
  1695183700, 1986661051, 2177026350, 2456956037, 2730485921, 2820302411,
  3259730800, 3345764771, 3516065817, 3600352804, 4094571909, 275423344,
  430227734, 506948616, 659060556, 883997877, 958139571, 1322822218,
  1537002063, 1747873779, 1955562222, 2024104815, 2227730452, 2361852424,
  2428436474, 2756734187, 3204031479, 3329325298]

/-- SHA-256 initial hash value (FIPS 180-4): the first 32 bits of the
fractional parts of the square roots of the first 8 primes. -/
def shaH0 : List Nat :=
  [0x6a09e667, 0xbb67ae85, 0x3c6ef372, 0xa54ff53a, 0x510e527f, 0x9b05688c, 0x1f83d9ab, 0x5be0cd19]

/-- State of the SHA-256 compression function: eight 32-bit words. -/
structure Sha2State where
  a : Nat
  b : Nat
  c : Nat
  d : Nat
  e : Nat
  f : Nat
  g : Nat
  h : Nat

def sha2Init : Sha2State :=
  match shaH0 with
  | [a, b, c, d, e, f, g, h] => ⟨a, b, c, d, e, f, g, h⟩
  | _ => ⟨0, 0, 0, 0, 0, 0, 0, 0⟩

/-- Message padding: append 0x80, zero bytes to 56 mod 64, then the 64-bit
big-endian bit length. -/
def sha2Pad (msg : List Nat) : List Nat :=
  let l := msg.length
  let zeros := (64 + 55 - (l % 64)) % 64
  msg ++ [128] ++ List.replicate zeros 0 ++
    (List.range 8).map (fun i => ((8 * l) >>> (8 * (7 - i))) % 256)

/-- Big-endian 32-bit words from bytes (length assumed a multiple of 4). -/
def wordsOfBytes : List Nat → List Nat
  | b0 :: b1 :: b2 :: b3 :: rest =>
      (b0 * 16777216 + b1 * 65536 + b2 * 256 + b3) :: wordsOfBytes rest
  | _ => []

/-- Message schedule extension from 16 words to 64 words (the accumulator
holds the words generated so far, most recent first). -/
def sha2ExtendGo : Nat → List Nat → List Nat
  | 0, acc => acc.reverse
  | fuel + 1, acc =>
      let w2 := acc.getD 1 0
      let w7 := acc.getD 6 0
      let w15 := acc.getD 14 0
      let w16 := acc.getD 15 0
      let s0 := (rotr32 7 w15) ^^^ (rotr32 18 w15) ^^^ (w15 >>> 3)
      let s1 := (rotr32 17 w2) ^^^ (rotr32 19 w2) ^^^ (w2 >>> 10)
      sha2ExtendGo fuel (w32 (w16 + s0 + w7 + s1) :: acc)

def sha2Schedule (block : List Nat) : List Nat :=
  sha2ExtendGo 48 block.reverse

def sha2Round (st : Sha2State) (kw : Nat × Nat) : Sha2State :=
  let S1 := (rotr32 6 st.e) ^^^ (rotr32 11 st.e) ^^^ (rotr32 25 st.e)
  let ch := (st.e &&& st.f) ^^^ ((st.e ^^^ 4294967295) &&& st.g)
  let t1 := w32 (st.h + S1 + ch + kw.1 + kw.2)
  let S0 := (rotr32 2 st.a) ^^^ (rotr32 13 st.a) ^^^ (rotr32 22 st.a)
  let mj := (st.a &&& st.b) ^^^ (st.a &&& st.c) ^^^ (st.b &&& st.c)
  let t2 := w32 (S0 + mj)
  ⟨w32 (t1 + t2), st.a, st.b, st.c, w32 (st.d + t1), st.e, st.f, st.g⟩

def sha2Compress (st : Sha2State) (block : List Nat) : Sha2State :=
  let ws := sha2Schedule block
  let r := (List.zip shaK ws).foldl sha2Round st
  ⟨w32 (st.a + r.a), w32 (st.b + r.b), w32 (st.c + r.c), w32 (st.d + r.d),
   w32 (st.e + r.e), w32 (st.f + r.f), w32 (st.g + r.g), w32 (st.h + r.h)⟩

def chunksOf16Words : List Nat → List (List Nat)
  | w0 :: w1 :: w2 :: w3 :: w4 :: w5 :: w6 :: w7 ::
    w8 :: w9 :: w10 :: w11 :: w12 :: w13 :: w14 :: w15 :: rest =>
      [w0, w1, w2, w3, w4, w5, w6, w7, w8, w9, w10, w11, w12, w13, w14, w15] ::
        chunksOf16Words rest
  | [] => []
  | l => [l]

/-- Big-endian bytes of a 32-bit word. -/
def be32 (wrd : Nat) : List Nat :=
  [(wrd >>> 24) % 256, (wrd >>> 16) % 256, (wrd >>> 8) % 256, wrd % 256]

def sha2Digest (st : Sha2State) : List Nat :=
  be32 st.a ++ be32 st.b ++ be32 st.c ++ be32 st.d ++
  be32 st.e ++ be32 st.f ++ be32 st.g ++ be32 st.h

/-- SHA-256 of a byte list, as its 32-byte digest. -/
def sha256 (msg : List Nat) : List Nat :=
  sha2Digest ((chunksOf16Words (wordsOfBytes (sha2Pad msg))).foldl sha2Compress sha2Init)

/-! AES-256 block cipher (FIPS 197). -/

/-- Multiplication by x in GF(2^8) modulo x^8+x^4+x^3+x+1. -/
def xtime (b : Nat) : Nat :=
  if b &&& 128 = 128 then ((b <<< 1) ^^^ 27) &&& 255 else (b <<< 1) &&& 255

/-- The AES S-box table (FIPS 197) packed into one natural number: byte i of
this number (bits 8i..8i+7) is S-box(i). -/
def sboxLit : Nat := 0x16bb54b00f2d99416842e6bf0d89a18cdf2855cee9871e9b948ed9691198f8e19e1dc186b95735610ef6034866b53e708a8bbd4b1f74dde8c6b4a61c2e2578ba08ae7a65eaf4566ca94ed58d6d37c8e779e4959162acd3c25c2406490a3a32e0db0b5ede14b8ee4688902a22dc4f816073195d643d7ea7c41744975fec130ccdd2f3ff1021dab6bcf5389d928f40a351a89f3c507f02f94585334d43fbaaefd0cf584c4a39becb6a5bb1fc20ed00d153842fe329b3d63b52a05a6e1b1a2c830975b227ebe28012079a059618c323c7041531d871f1e5a534ccf73f362693fdb7c072a49cafa2d4adf04759fa7dc982ca76abd7fe2b670130c56f6bf27b777c63

/-- S-box lookup. -/
def sSub (b : Nat) : Nat := (sboxLit >>> (8 * b)) &&& 255

/-- Apply the S-box to each byte of a 32-bit word. -/
def subWord (wrd : Nat) : Nat :=
  (sSub ((wrd >>> 24) &&& 255)) <<< 24 ||| (sSub ((wrd >>> 16) &&& 255)) <<< 16 |||
  (sSub ((wrd >>> 8) &&& 255)) <<< 8 ||| sSub (wrd &&& 255)

def rotWord (wrd : Nat) : Nat := ((wrd <<< 8) ||| (wrd >>> 24)) &&& 4294967295

/-- AES round constant byte: 2^(j-1) in GF(2^8); no modular reduction occurs
for the seven constants AES-256 uses, so this is a plain power of two. -/
def rconByte (j : Nat) : Nat := 2 ^ (j - 1)

/-- AES-256 key schedule: expand 8 words to 60, building the list in
reverse (head is the most recently generated word). -/
def expandKeyGo : Nat → List Nat → List Nat
  | 0, rws => rws.reverse
  | fuel + 1, rws =>
      let i := rws.length
      let prev := rws.headD 0
      let p8 := rws.getD 7 0
      let nw :=
        if i % 8 = 0 then p8 ^^^ subWord (rotWord prev) ^^^ ((rconByte (i / 8)) <<< 24)
        else if i % 8 = 4 then p8 ^^^ subWord prev
        else p8 ^^^ prev
      expandKeyGo fuel (nw :: rws)

def expandKey (keyBytes : List Nat) : List Nat :=
  expandKeyGo 52 (wordsOfBytes keyBytes).reverse

/-- Bytes of the round-key words 4r..4r+3 (column-major AES state order). -/
def roundKey (ws : List Nat) (r : Nat) : List Nat :=
  (((ws.drop (4 * r)).take 4).map be32).flatten

def addRoundKey (rk st : List Nat) : List Nat := List.zipWith Nat.xor rk st

def subBytes (st : List Nat) : List Nat := st.map sSub

/-- ShiftRows on the column-major 16-byte state. -/
def shiftRows : List Nat → List Nat
  | [s0, s1, s2, s3, s4, s5, s6, s7, s8, s9, s10, s11, s12, s13, s14, s15] =>
      [s0, s5, s10, s15, s4, s9, s14, s3, s8, s13, s2, s7, s12, s1, s6, s11]
  | st => st

def mixCol (a b c d : Nat) : List Nat :=
  [xtime a ^^^ (xtime b ^^^ b) ^^^ c ^^^ d,
   a ^^^ xtime b ^^^ (xtime c ^^^ c) ^^^ d,
   a ^^^ b ^^^ xtime c ^^^ (xtime d ^^^ d),
   (xtime a ^^^ a) ^^^ b ^^^ c ^^^ xtime d]

def mixColumns : List Nat → List Nat
  | a :: b :: c :: d :: rest => mixCol a b c d ++ mixColumns rest
  | st => st

/-- AES-256 block encryption: 32-byte key, 16-byte block, both byte lists. -/
def encryptBlock (keyBytes block : List Nat) : List Nat :=
  let ws := expandKey keyBytes
  let s0 := addRoundKey (roundKey ws 0) block
  let sMain := (List.range 13).foldl
    (fun st r => addRoundKey (roundKey ws (r + 1)) (mixColumns (shiftRows (subBytes st)))) s0
  addRoundKey (roundKey ws 14) (shiftRows (subBytes sMain))

/-! Galois/Counter Mode (NIST SP 800-38D). 128-bit blocks are big-endian
natural numbers. -/

def bytesToNatBE (bs : List Nat) : Nat := bs.foldl (fun acc b => acc * 256 + b) 0

def natToBytesBE (w n : Nat) : List Nat :=
  (List.range w).map (fun i => (n >>> (8 * (w - 1 - i))) &&& 255)

/-- GF(2^128) product per SP 800-38D (right-shift algorithm, bit i of x
taken most-significant first; reduction block R = e1 followed by zeros). -/
def gmul128Go (x : Nat) : Nat → Nat → Nat → Nat
  | 0, _, z => z
  | n + 1, v, z =>
      let z2 := if (x >>> n) &&& 1 = 1 then z ^^^ v else z
      let v2 := if v &&& 1 = 1 then (v >>> 1) ^^^ (0xe1 <<< 120) else v >>> 1
      gmul128Go x n v2 z2

def gmul128 (x y : Nat) : Nat := gmul128Go x 128 y 0

def ghashBlocks (h : Nat) (blocks : List Nat) : Nat :=
  blocks.foldl (fun y b => gmul128 (y ^^^ b) h) 0

/-- Split a byte list into 128-bit big-endian blocks, zero-padding the last. -/
def blocksOfBytes : List Nat → List Nat
  | [] => []
  | b0 :: b1 :: b2 :: b3 :: b4 :: b5 :: b6 :: b7 ::
    b8 :: b9 :: b10 :: b11 :: b12 :: b13 :: b14 :: b15 :: rest =>
      bytesToNatBE [b0, b1, b2, b3, b4, b5, b6, b7, b8, b9, b10, b11, b12, b13, b14, b15] ::
        blocksOfBytes rest
  | l => [bytesToNatBE (l ++ List.replicate (16 - l.length) 0)]

/-- The GCM hash subkey: the block cipher applied to the zero block. -/
def gcmH (keyBytes : List Nat) : Nat := bytesToNatBE (encryptBlock keyBytes (List.replicate 16 0))

/-- The pre-counter block J0: 12-byte IVs give IV || 0^31 || 1, any other
length is hashed with GHASH. -/
def gcmJ0 (h : Nat) (iv : List Nat) : Nat :=
  if iv.length = 12 then (bytesToNatBE iv) <<< 32 ||| 1
  else ghashBlocks h (blocksOfBytes iv ++ [8 * iv.length])

/-- 32-bit increment of the low word of a counter block, by i. -/
def inc32By (x i : Nat) : Nat :=
  ((x >>> 32) <<< 32) ||| ((x + i) % 4294967296)

/-- CTR keystream starting at inc32(J0), truncated to len bytes. -/
def gcmKeystream (keyBytes : List Nat) (j0 len : Nat) : List Nat :=
  (((List.range (len / 16 + 1)).map
    (fun i => encryptBlock keyBytes (natToBytesBE 16 (inc32By j0 (i + 1))))).flatten).take len

/-- GCM CTR-mode transform (identical for encryption and decryption). -/
def gcmCrypt (keyBytes : List Nat) (iv data : List Nat) : List Nat :=
  List.zipWith Nat.xor data (gcmKeystream keyBytes (gcmJ0 (gcmH keyBytes) iv) data.length)

/-- The full 16-byte GCM authentication tag over ciphertext ct (no AAD). -/
def gcmTag (keyBytes : List Nat) (iv ct : List Nat) : List Nat :=
  let h := gcmH keyBytes
  let j0 := gcmJ0 h iv
  let s := ghashBlocks h (blocksOfBytes ct ++ [8 * ct.length])
  natToBytesBE 16 (s ^^^ bytesToNatBE (encryptBlock keyBytes (natToBytesBE 16 j0)))

/-! Embedding of src/utils/crypto.ts. -/

/-- deriveKey of crypto.ts: SHA-256 of the raw key bytes, the full 32-byte
digest (createHash of Node, update with the raw key, digest). -/
def deriveKey (rawKey : List Nat) : List Nat := sha256 rawKey

/-- Metadata attached to an envelope by Sops.encrypt of index.ts. -/
structure Metadata where
  encryptedAt : String
  version : String
deriving DecidableEq

/-- The EncryptedData record of index.ts, as read back from a JSON file: any
field may be missing at runtime (TS gives the missing field undefined), which
the embedding records as none. crypto.encrypt always produces the first three
fields. -/
structure EncryptedData where
  iv : Option (List Nat)
  content : Option (List Nat)
  tag : Option (List Nat)
  metadata : Option Metadata
deriving DecidableEq

/-- encrypt of crypto.ts: fresh 12-byte random IV (passed here as the
explicit argument ivBytes), key derivation, AES-256-GCM, base64 fields.
The TS return object has no metadata property. -/
def encrypt (content : List Nat) (rawKey : List Nat) (ivBytes : List Nat) : EncryptedData :=
  let key := deriveKey rawKey
  let ct := gcmCrypt key ivBytes content
  { iv := some (b64encode ivBytes)
    content := some (b64encode ct)
    tag := some (b64encode (gcmTag key ivBytes ct))
    metadata := none }

/-- Node error message of Buffer.from applied to undefined (the missing
iv or tag field). Modelled from the documented Node ERR_INVALID_ARG_TYPE. -/
def bufferFromArgTypeError : String :=
  "The first argument must be of type string or an instance of Buffer, ArrayBuffer, or Array or an Array-like Object. Received undefined"

/-- Node error message of decipher.update applied to undefined (the missing
content field). Modelled from the documented Node ERR_INVALID_ARG_TYPE. -/
def cipherUpdateArgTypeError : String :=
  "The first argument must be of type string or an instance of Buffer, TypedArray, or DataView. Received undefined"

/-- The OpenSSL message raised by decipher.final on GCM tag mismatch. -/
def authFailMsg : String := "Unsupported state or unable to authenticate data"

/-- Tag lengths accepted by decipher.setAuthTag of Node for GCM when no
explicit authTagLength was configured. -/
def validTagLength (n : Nat) : Bool :=
  n = 16 || n = 15 || n = 14 || n = 13 || n = 12 || n = 8 || n = 4

/-- The body of the try block of decrypt in crypto.ts, following the order
of the code: decode iv and tag (Buffer.from throws a TypeError on a missing
field), derive the key, createDecipheriv (Node rejects an empty GCM IV),
setAuthTag (Node validates the tag length), update with the base64 content
(TypeError when the field is missing), then final, which recomputes the GCM
tag over the received ciphertext and compares it, truncated to the length of
the provided tag, failing with the generic OpenSSL message on mismatch. -/
def decryptInner (e : EncryptedData) (rawKey : List Nat) : Except String (List Nat) :=
  match e.iv with
  | none => .error bufferFromArgTypeError
  | some si =>
    match e.tag with
    | none => .error bufferFromArgTypeError
    | some stg =>
      let iv := b64decode si
      let tag := b64decode stg
      let key := deriveKey rawKey
      if iv.length = 0 then .error "Invalid initialization vector"
      else if validTagLength tag.length then
        match e.content with
        | none => .error cipherUpdateArgTypeError
        | some sc =>
          let ct := b64decode sc
          if tag = (gcmTag key iv ct).take tag.length then .ok (gcmCrypt key iv ct)
          else .error authFailMsg
      else .error ("Invalid authentication tag length: " ++ toString tag.length)

/-- The fixed message template of the catch block of decrypt: the message of
the caught error is interpolated into it. -/
def wrapMsg (inner : String) : String :=
  "Decryption failed: " ++ inner ++
    ". This could be due to an incorrect key, corrupted data, or data tampering."

/-- decrypt of crypto.ts: the try body above, with every failure re-thrown
wrapped in the single fixed message template of the catch block. -/
def decrypt (e : EncryptedData) (rawKey : List Nat) : Except String (List Nat) :=
  match decryptInner e rawKey with
  | .ok pt => .ok pt
  | .error m => .error (wrapMsg m)

/-! Filesystem model for the key-file and rotation claims: an association
list from path to file content and permission mode. Directories are not
modelled (mkdirSync is a no-op here); writes succeed. -/

structure FileEntry where
  content : String
  mode : Nat
deriving DecidableEq

structure FileSys where
  entries : List (String × FileEntry)
deriving DecidableEq

def FileSys.lookup (fs : FileSys) (p : String) : Option FileEntry :=
  (fs.entries.find? (fun e => e.1 == p)).map Prod.snd

/-- existsSync of Node fs. -/
def existsSync (fs : FileSys) (p : String) : Bool := (fs.lookup p).isSome

/-- writeFileSync of Node fs: overwrite keeps the existing mode, a new file
is created with the default mode 0o644. -/
def writeFileSync (fs : FileSys) (p : String) (c : String) : FileSys :=
  match fs.lookup p with
  | some fe => ⟨fs.entries.map (fun ent => if ent.1 == p then (ent.1, ⟨c, fe.mode⟩) else ent)⟩
  | none => ⟨(p, ⟨c, 0o644⟩) :: fs.entries⟩

/-- chmodSync of Node fs (no-op on a missing file in this model). -/
def chmodSync (fs : FileSys) (p : String) (m : Nat) : FileSys :=
  ⟨fs.entries.map (fun ent => if ent.1 == p then (ent.1, ⟨ent.2.content, m⟩) else ent)⟩

/-- unlinkSync of Node fs. -/
def unlinkSync (fs : FileSys) (p : String) : FileSys :=
  ⟨fs.entries.filter (fun ent => ¬ (ent.1 == p))⟩

/-- saveKey of crypto.ts: create the parent directory if needed (directories
are not modelled), write the key, then chmod 0o600. -/
def saveKey (key : String) (keyPath : String) (fs : FileSys) : FileSys :=
  chmodSync (writeFileSync fs keyPath key) keyPath 0o600

/-- hasSecurePermissions of crypto.ts: stat the file (a missing file makes
statSync throw, caught as false), take the permission bits mode & 0o777, and
require no group/other bits: (mode & 0o777) & 0o077 == 0. -/
def hasSecurePermissions (fs : FileSys) (filePath : String) : Bool :=
  match fs.lookup filePath with
  | none => false
  | some fe => ((fe.mode &&& 0o777) &&& 0o077) == 0

/-- Whitespace for the trim of loadKey. -/
def isWsChar (c : Char) : Bool := c = ' ' || c = '\n' || c = '\t' || c = '\r'

/-- trim of JS strings (leading and trailing whitespace removed). -/
def strTrim (s : String) : String :=
  String.mk (((s.data.dropWhile isWsChar).reverse.dropWhile isWsChar).reverse)

/-- endsWith of JS strings. -/
def strEndsWith (s suffix : String) : Bool :=
  s.data.reverse.take suffix.data.length == suffix.data.reverse

/-- loadKey of crypto.ts: missing file gives the wrapped error, otherwise the
trimmed content (the insecure-permission warning is non-fatal and not part of
the returned value). -/
def loadKey (fs : FileSys) (keyPath : String) : Except String String :=
  match fs.lookup keyPath with
  | none => .error ("Failed to load key from " ++ keyPath ++ ": Key file does not exist: " ++ keyPath)
  | some fe => .ok (strTrim fe.content)

/-! Embedding of the Sops class of index.ts (filesystem-level operations).
The key cache of the instance and key-path resolution are not modelled: the
operations take the resolved key path explicitly, matching a fresh instance
with an explicit keyPath option. -/

/-- initialize of index.ts: refuse when a key file already exists at the
resolved path, otherwise generate a key (the randomness is the freshKey
argument), save it with saveKey and return it. -/
def sopsInitialize (fs : FileSys) (keyPath : String) (freshKey : String) :
    Except String String × FileSys :=
  if existsSync fs keyPath then
    (.error ("Key file already exists at " ++ keyPath), fs)
  else
    (.ok freshKey, saveKey freshKey keyPath fs)

/-- getKey of index.ts for an instance with no cached key: missing file is
an error instructing initialization, otherwise loadKey. -/
def sopsGetKey (fs : FileSys) (keyPath : String) : Except String String :=
  if existsSync fs keyPath then loadKey fs keyPath
  else .error ("Key file not found at " ++ keyPath ++ ". Run initialize() first.")

/-! JSON documents and the get walk of index.ts (claim C5). Documents come
from JSON.parse, so values are the plain JSON data model. Property access
value[part] is modelled on all data-valued JS properties: own fields of
objects, elements and length of arrays, and length and character indices of
strings. Function-valued prototype properties (toString, toUpperCase, and
the like) have no JSON representation and are outside the model; number,
boolean, and null values have no data-valued properties in JS. -/

inductive Json where
  | null : Json
  | bool : Bool → Json
  | num : Int → Json
  | str : String → Json
  | arr : List Json → Json
  | obj : List (String × Json) → Json

/-- A canonical JS array/string index key: digits only, no leading zero
except for the key 0 itself (JS treats only canonical numeric strings as
element keys, so the key 007 is not an index). -/
def strToIndex (s : String) : Option Nat :=
  match s.data with
  | [] => none
  | c :: cs =>
      if (c :: cs).all (fun d => 48 ≤ d.toNat && d.toNat ≤ 57) &&
          ¬ (c == Char.ofNat 48 && ¬ cs.isEmpty) then
        some ((c :: cs).foldl (fun acc d => acc * 10 + (d.toNat - 48)) 0)
      else none

/-- Property access value[part] on a JSON value: own fields of objects;
elements and length of arrays; length and character indices of strings
(character access gives a one-character string, as in JS); undefined (none)
for numbers, booleans, and every other key. Access on null would throw in
JS, but the loop guard of get returns before indexing null. -/
def jsIndex : Json → String → Option Json
  | .obj fields, k => (fields.find? (fun f => f.1 == k)).map Prod.snd
  | .arr xs, k =>
      if k == "length" then some (.num xs.length)
      else
        match strToIndex k with
        | some i => xs.get? i
        | none => none
  | .str s, k =>
      if k == "length" then some (.num s.data.length)
      else
        match strToIndex k with
        | some i => (s.data.get? i).map (fun c => .str (String.mk [c]))
        | none => none
  | _, _ => none

/-- The loop of get in index.ts: value starts as the document; for each
part, undefined or null returns undefined, otherwise value becomes
value[part]; after the last part the current value is returned. -/
def jsWalk : Option Json → List String → Option Json
  | v, [] => v
  | none, _ :: _ => none
  | some .null, _ :: _ => none
  | some v, p :: ps => jsWalk (jsIndex v p) ps

/-- Split on the dot character, as key.split of JS (an empty string gives
one empty segment). -/
def splitDotGo : List Char → List Char → List String
  | [], acc => [String.mk acc.reverse]
  | c :: cs, acc =>
      if c = '.' then String.mk acc.reverse :: splitDotGo cs []
      else splitDotGo cs (c :: acc)

def splitDot (s : String) : List String := splitDotGo s.data []

/-- get of index.ts, with the result of view (the decrypted document)
abstracted as the doc argument: a view failure is rethrown wrapped, a
success walks the document along the dot path. -/
def sopsGet (doc : Except String Json) (key : String) : Except String (Option Json) :=
  match doc with
  | .error m => .error ("Failed to get value at " ++ key ++ ": " ++ m)
  | .ok data => .ok (jsWalk (some data) (splitDot key))

/-! Embedding of the rotate command of cli.ts (claim C8). The document and
envelope contents are threaded as opaque strings here — the cipher itself is
modelled in full at the crypto.ts layer above; what the rotation claim needs
from view and encrypt is their success or failure and the file writes. -/

/-- path.extname based file-type test of file.ts (yaml). -/
def isYamlFile (p : String) : Bool := strEndsWith p ".yaml" || strEndsWith p ".yml"

/-- path.extname based file-type test of file.ts (json). -/
def isJsonFile (p : String) : Bool := strEndsWith p ".json"

/-- readDataFile of file.ts: dispatch on the extension, fail on unsupported
extensions and on missing files (with the wrapped message of the reader). -/
def readDataFile (fs : FileSys) (p : String) : Except String String :=
  if isYamlFile p then
    match fs.lookup p with
    | none => .error ("Failed to read YAML file " ++ p ++ ": File does not exist: " ++ p)
    | some fe => .ok fe.content
  else if isJsonFile p then
    match fs.lookup p with
    | none => .error ("Failed to read JSON file " ++ p ++ ": File does not exist: " ++ p)
    | some fe => .ok fe.content
  else .error ("Unsupported file type: " ++ p)

/-- Opaque stand-in for the serialized envelope JSON that Sops.encrypt
writes; its exact shape is irrelevant to the filesystem claims. -/
def envelopeText (doc : String) : String := "envelope:" ++ doc

/-- encrypt of index.ts at file level: read the input document, get the key
(both can fail, wrapped in the fixed template of the catch), then write the
envelope to the output path. -/
def sopsEncryptFile (fs : FileSys) (keyPath inputPath outputPath : String) :
    Except String Unit × FileSys :=
  match readDataFile fs inputPath with
  | .error m => (.error ("Failed to encrypt file: " ++ m), fs)
  | .ok data =>
    match sopsGetKey fs keyPath with
    | .error m => (.error ("Failed to encrypt file: " ++ m), fs)
    | .ok _key => (.ok (), writeFileSync fs outputPath (envelopeText data))

/-- view of index.ts at file level: read the envelope file, then decrypt
with the key of the instance (both can fail, wrapped); the decrypted
document is threaded as the content of the envelope file, kept opaque. -/
def sopsViewFile (fs : FileSys) (keyPath inputPath : String) : Except String String :=
  match fs.lookup inputPath with
  | none => .error ("Failed to view encrypted content: Failed to read JSON file " ++ inputPath ++
      ": File does not exist: " ++ inputPath)
  | some fe =>
    match sopsGetKey fs keyPath with
    | .error m => .error ("Failed to view encrypted content: " ++ m)
    | .ok _key => .ok fe.content

/-- path.dirname: everything before the last slash, or a dot when the path
has no slash. -/
def dirname (p : String) : String :=
  match (p.data.reverse).dropWhile (fun c => ¬ (c = '/')) with
  | [] => "."
  | _ :: rest => String.mk rest.reverse

/-- path.join of the two-argument uses in cli.ts. -/
def pathJoin (a b : String) : String := a ++ "/" ++ b

/-- Options of the rotate command, with input and output paths already
resolved (the output defaults to the input path in cli.ts). -/
structure RotateOpts where
  input : String
  output : String
  oldKeyFile : String
  newKeyFile : Option String

/-- The action of the rotate command of cli.ts, step by step: view under the
old key; when no new key file was given, initialize the default path
swallowing any error; write the decrypted document to temp_rotation.json in
the directory of the output; encrypt the temp file to the output under the
new key; unlink the temp file. The surrounding catch of the CLI only prints,
so a failing step returns the filesystem as that step left it. -/
def rotateCli (fs : FileSys) (opts : RotateOpts) (freshKey defaultKeyPath : String) :
    Except String Unit × FileSys :=
  match sopsViewFile fs opts.oldKeyFile opts.input with
  | .error m => (.error m, fs)
  | .ok data =>
    let newKeyPath := (opts.newKeyFile).getD defaultKeyPath
    let fs1 := if (opts.newKeyFile).isNone then (sopsInitialize fs newKeyPath freshKey).2 else fs
    let tempFilePath := pathJoin (dirname opts.output) "temp_rotation.json"
    let fs2 := writeFileSync fs1 tempFilePath data
    match sopsEncryptFile fs2 newKeyPath tempFilePath opts.output with
    | (.error m, fs3) => (.error m, fs3)
    | (.ok _, fs3) => (.ok (), unlinkSync fs3 tempFilePath)

/-! Concrete values used by witnesses and counterexamples. -/

/-- Byte sequence of a small raw key. -/
def kB : List Nat := [107]

/-- A second raw key, different from kB. -/
def kB2 : List Nat := [108]

/-- A fixed 12-byte IV standing for one output of randomBytes(12). -/
def ivB : List Nat := [1, 2, 3, 4, 5, 6, 7, 8, 9, 10, 11, 12]

/-- Flip the bits of mask into byte i of a char list. -/
def flipByte (s : List Nat) (i mask : Nat) : List Nat := s.set i (s.getD i 0 ^^^ mask)

/-- A concrete envelope produced by encrypt; the plaintext byte was chosen
so that the first ciphertext byte is 0 and the base64 content is AA== . -/
def e0 : EncryptedData := encrypt [131] kB ivB

/-- e0 with one bit of one byte of the content field flipped (char 1 of the
base64 text, 65 xor 4 = 69): the flip lands in the four padding bits that
the base64 decoder discards, so the decoded ciphertext is unchanged. -/
def e0contentFlip : EncryptedData :=
  { e0 with content := (e0.content).map (fun s => flipByte s 1 4) }

/-- e0 with one bit of one byte of the tag field flipped (char 0 of the
base64 text): the decoded 16-byte tag changes. -/
def e0tagFlip : EncryptedData :=
  { e0 with tag := (e0.tag).map (fun s => flipByte s 0 2) }

/-- e0 with the tag field replaced by four invalid base64 characters: the
lenient decoder drops them all, leaving a 0-byte tag. -/
def e0tagJunk : EncryptedData :=
  { e0 with tag := some [33, 33, 33, 33] }

/-- e0 with the tag field absent (an envelope JSON without tag). -/
def e0noTag : EncryptedData := { e0 with tag := none }

/-- An envelope with metadata present, for the metadata-independence claim. -/
def e10a : EncryptedData :=
  { iv := some (b64encode ivB), content := some [65, 65, 61, 61], tag := some [33],
    metadata := some ⟨"2025-01-01T00:00:00.000Z", "1.0"⟩ }

/-- The same envelope with metadata absent. -/
def e10b : EncryptedData :=
  { iv := some (b64encode ivB), content := some [65, 65, 61, 61], tag := some [33],
    metadata := none }

/-- The example document of the specification for the get claim. -/
def docExample : Json :=
  .obj [("data", .obj [("api", .obj [("key", .str "abc")])])]

/-- Filesystem for the rotate success scenario: old key, new key, and the
encrypted input file all present. -/
def fs8ok : FileSys :=
  ⟨[("/w/old.key", ⟨"OLDKEY", 0o600⟩), ("/w/new.key", ⟨"NEWKEY", 0o600⟩),
    ("/w/secrets.enc.json", ⟨"envelope:data", 0o644⟩)]⟩

/-- Filesystem for the rotate failure scenario: the new key file named on
the command line does not exist, so the encrypt step fails after the
plaintext temp file has been written. -/
def fs8bad : FileSys :=
  ⟨[("/w/old.key", ⟨"OLDKEY", 0o600⟩), ("/w/secrets.enc.json", ⟨"envelope:data", 0o644⟩)]⟩

/-- Rotate options of the success scenario. -/
def opts8ok : RotateOpts :=
  ⟨"/w/secrets.enc.json", "/w/out.enc.json", "/w/old.key", some "/w/new.key"⟩

/-- Rotate options of the failure scenario (missing new key file). -/
def opts8bad : RotateOpts :=
  ⟨"/w/secrets.enc.json", "/w/out.enc.json", "/w/old.key", some "/w/missing.key"⟩

/-- Concrete filesystem with one key file, for the initialize witness. -/
def fs6 : FileSys := ⟨[("/w/.sops-key", ⟨"EXISTING", 0o600⟩)]⟩

deriving instance DecidableEq for Except

/-! Helper lemmas: base64. -/

theorem b64val_b64char {n : Nat} (h : n < 64) : b64val (b64char n) = n := by
  revert n h; decide

theorem isB64Char_b64char {n : Nat} (h : n < 64) : isB64Char (b64char n) = true := by
  revert n h; decide

theorem isB64Char_61 : isB64Char 61 = false := by decide

/-- Decoding inverts encoding on byte lists (the flips that matter for the
tamper claims are exactly the ones this lemma does not cover). -/
theorem b64_roundtrip : ∀ bs : List Nat, (∀ b ∈ bs, b < 256) → b64decode (b64encode bs) = bs
  | [], _ => rfl
  | [a], h => by
      have ha : a < 256 := h a (by simp)
      have h0 : a / 4 < 64 := by omega
      have h1 : (a % 4) * 16 < 64 := by omega
      simp only [b64encode, b64decode, List.filter_cons, isB64Char_b64char h0,
        isB64Char_b64char h1, isB64Char_61, List.filter_nil, if_true, if_false,
        List.map_cons, List.map_nil, b64val_b64char h0, b64val_b64char h1, b64decodeClean,
        List.cons.injEq, and_true]
      omega
  | [a, b], h => by
      have ha : a < 256 := h a (by simp)
      have hb : b < 256 := h b (by simp)
      have h0 : a / 4 < 64 := by omega
      have h1 : (a % 4) * 16 + b / 16 < 64 := by omega
      have h2 : (b % 16) * 4 < 64 := by omega
      simp only [b64encode, b64decode, List.filter_cons, isB64Char_b64char h0,
        isB64Char_b64char h1, isB64Char_b64char h2, isB64Char_61, List.filter_nil,
        if_true, if_false, List.map_cons, List.map_nil,
        b64val_b64char h0, b64val_b64char h1, b64val_b64char h2, b64decodeClean,
        List.cons.injEq, and_true]
      omega
  | [a, b, c], h => by
      have ha : a < 256 := h a (by simp)
      have hb : b < 256 := h b (by simp)
      have hc : c < 256 := h c (by simp)
      have h0 : a / 4 < 64 := by omega
      have h1 : (a % 4) * 16 + b / 16 < 64 := by omega
      have h2 : (b % 16) * 4 + c / 64 < 64 := by omega
      have h3 : c % 64 < 64 := by omega
      simp only [b64encode, b64decode, List.filter_cons, isB64Char_b64char h0,
        isB64Char_b64char h1, isB64Char_b64char h2, isB64Char_b64char h3, if_true,
        List.filter_nil, List.map_cons, List.map_nil, b64val_b64char h0, b64val_b64char h1,
        b64val_b64char h2, b64val_b64char h3, b64decodeClean, List.cons.injEq, and_true]
      omega
  | a :: b :: c :: d :: rest, h => by
      have ha : a < 256 := h a (by simp)
      have hb : b < 256 := h b (by simp)
      have hc : c < 256 := h c (by simp)
      have ih := b64_roundtrip (d :: rest) (fun x hx => h x (by simp at hx ⊢; tauto))
      have h0 : a / 4 < 64 := by omega
      have h1 : (a % 4) * 16 + b / 16 < 64 := by omega
      have h2 : (b % 16) * 4 + c / 64 < 64 := by omega
      have h3 : c % 64 < 64 := by omega
      simp only [b64encode, b64decode, List.filter_cons, isB64Char_b64char h0,
        isB64Char_b64char h1, isB64Char_b64char h2, isB64Char_b64char h3, if_true,
        List.map_cons, b64val_b64char h0, b64val_b64char h1, b64val_b64char h2,
        b64val_b64char h3, b64decodeClean]
      simp only [b64decode] at ih
      rw [ih]
      simp only [List.cons.injEq]
      exact ⟨by omega, by omega, by omega, trivial⟩

/-! Helper lemmas: byte bounds and lengths of the cipher primitives. -/

theorem xor_lt_256 {a b : Nat} (ha : a < 256) (hb : b < 256) : a ^^^ b < 256 := by
  have h := Nat.bitwise_lt (f := bne) (n := 8) ha hb
  simpa [HXor.hXor, Nat.xor] using h

theorem zipWith_xor_lt : ∀ (l1 l2 : List Nat), (∀ a ∈ l1, a < 256) → (∀ b ∈ l2, b < 256) →
    ∀ x ∈ List.zipWith Nat.xor l1 l2, x < 256
  | [], _, _, _ => by simp
  | _ :: _, [], _, _ => by simp
  | a :: l1, b :: l2, h1, h2 => by
      intro x hx
      simp only [List.zipWith_cons_cons, List.mem_cons] at hx
      rcases hx with rfl | hx
      · exact xor_lt_256 (h1 a (by simp)) (h2 b (by simp))
      · exact zipWith_xor_lt l1 l2 (fun y hy => h1 y (by simp [hy]))
          (fun y hy => h2 y (by simp [hy])) x hx

theorem zipWith_xor_cancel : ∀ (p s : List Nat), p.length ≤ s.length →
    List.zipWith Nat.xor (List.zipWith Nat.xor p s) s = p
  | [], _, _ => by simp
  | a :: p, [], h => by simp at h
  | a :: p, b :: s, h => by
      simp only [List.zipWith_cons_cons, List.cons.injEq]
      exact ⟨Nat.xor_cancel_right b a, zipWith_xor_cancel p s (by simpa using h)⟩

theorem natToBytesBE_length (w n : Nat) : (natToBytesBE w n).length = w := by
  simp [natToBytesBE]

theorem natToBytesBE_lt (w n : Nat) : ∀ b ∈ natToBytesBE w n, b < 256 := by
  intro b hb
  simp only [natToBytesBE, List.mem_map, List.mem_range] at hb
  obtain ⟨i, _, rfl⟩ := hb
  have h := Nat.and_le_right (n := n >>> (8 * (w - 1 - i))) (m := 255)
  omega

theorem sha256_length (msg : List Nat) : (sha256 msg).length = 32 := by
  simp [sha256, sha2Digest, be32]

theorem be32_lt (w : Nat) : ∀ b ∈ be32 w, b < 256 := by
  intro b hb
  simp only [be32, List.mem_cons, List.not_mem_nil, or_false] at hb
  rcases hb with rfl | rfl | rfl | rfl <;> exact Nat.mod_lt _ (by omega)

theorem sSub_lt (b : Nat) : sSub b < 256 := by
  have h := Nat.and_le_right (n := sboxLit >>> (8 * b)) (m := 255)
  simp only [sSub]
  omega

theorem wordsOfBytes_length : ∀ l : List Nat, (wordsOfBytes l).length = l.length / 4
  | b0 :: b1 :: b2 :: b3 :: rest => by
      simp only [wordsOfBytes, List.length_cons, wordsOfBytes_length rest]
      omega
  | [] => by simp [wordsOfBytes]
  | [a] => by simp [wordsOfBytes]
  | [a, b] => by simp [wordsOfBytes]
  | [a, b, c] => by simp [wordsOfBytes]

theorem expandKeyGo_length : ∀ (n : Nat) (rws : List Nat),
    (expandKeyGo n rws).length = n + rws.length
  | 0, rws => by simp [expandKeyGo]
  | n + 1, rws => by
      simp only [expandKeyGo, expandKeyGo_length n, List.length_cons]
      omega

theorem expandKey_length {keyBytes : List Nat} (h : keyBytes.length = 32) :
    (expandKey keyBytes).length = 60 := by
  simp [expandKey, expandKeyGo_length, wordsOfBytes_length, h]

theorem flatten_map_be32_length : ∀ l : List Nat, ((l.map be32).flatten).length = 4 * l.length
  | [] => rfl
  | w :: l => by
      simp only [List.map_cons, List.flatten_cons, List.length_append,
        flatten_map_be32_length l, be32, List.length_cons, List.length_nil]
      omega

theorem roundKey_length {ws : List Nat} (r : Nat) (hws : ws.length = 60) (hr : r ≤ 14) :
    (roundKey ws r).length = 16 := by
  simp only [roundKey, flatten_map_be32_length, List.length_take, List.length_drop, hws]
  omega

theorem roundKey_lt (ws : List Nat) (r : Nat) : ∀ x ∈ roundKey ws r, x < 256 := by
  intro x hx
  simp only [roundKey, List.mem_flatten, List.mem_map] at hx
  obtain ⟨l, ⟨w, _, rfl⟩, hxl⟩ := hx
  exact be32_lt w x hxl

theorem shiftRows_length (l : List Nat) : (shiftRows l).length = l.length := by
  unfold shiftRows
  split <;> simp

theorem shiftRows_mem (l : List Nat) : ∀ x ∈ shiftRows l, x ∈ l := by
  unfold shiftRows
  split
  · intro x hx
    simp only [List.mem_cons, List.not_mem_nil, or_false] at hx ⊢
    tauto
  · intro x hx
    exact hx

theorem mixColumns_length : ∀ l : List Nat, (mixColumns l).length = l.length
  | a :: b :: c :: d :: rest => by
      simp only [mixColumns, mixCol, List.length_append, mixColumns_length rest,
        List.length_cons, List.length_nil]
      omega
  | [] => rfl
  | [a] => rfl
  | [a, b] => rfl
  | [a, b, c] => rfl

theorem subBytes_length (l : List Nat) : (subBytes l).length = l.length := by
  simp [subBytes]

theorem addRoundKey_length (rk st : List Nat) :
    (addRoundKey rk st).length = min rk.length st.length := by
  simp [addRoundKey]

theorem aesFold_length : ∀ (rs : List Nat) (ws st : List Nat), ws.length = 60 →
    (∀ r ∈ rs, r ≤ 13) → st.length = 16 →
    ((rs.foldl (fun s r =>
      addRoundKey (roundKey ws (r + 1)) (mixColumns (shiftRows (subBytes s)))) st)).length = 16
  | [], _, _, _, _, hst => hst
  | r :: rs, ws, st, hws, hr, hst => by
      simp only [List.foldl_cons]
      apply aesFold_length rs ws _ hws (fun x hx => hr x (by simp [hx]))
      rw [addRoundKey_length, roundKey_length (r + 1) hws (by have := hr r (by simp); omega),
        mixColumns_length, shiftRows_length, subBytes_length, hst]
      omega

theorem encryptBlock_length {keyBytes block : List Nat} (hkey : keyBytes.length = 32)
    (hb : block.length = 16) : (encryptBlock keyBytes block).length = 16 := by
  have hws : (expandKey keyBytes).length = 60 := expandKey_length hkey
  simp only [encryptBlock]
  rw [addRoundKey_length, roundKey_length 14 hws (by omega), shiftRows_length, subBytes_length,
    aesFold_length (List.range 13) _ _ hws (fun r hr => by simp at hr; omega)
      (by rw [addRoundKey_length, roundKey_length 0 hws (by omega), hb]; omega)]
  omega

theorem encryptBlock_lt (keyBytes block : List Nat) :
    ∀ x ∈ encryptBlock keyBytes block, x < 256 := by
  intro x hx
  simp only [encryptBlock] at hx
  refine zipWith_xor_lt _ _ (roundKey_lt _ 14) ?_ x hx
  intro y hy
  have hy2 := shiftRows_mem _ y hy
  simp only [subBytes, List.mem_map] at hy2
  obtain ⟨z, _, rfl⟩ := hy2
  exact sSub_lt z

/-! Helper lemmas: GCM keystream, transform, and tag. -/

theorem flatten_length16 : ∀ L : List (List Nat), (∀ x ∈ L, x.length = 16) →
    L.flatten.length = 16 * L.length
  | [], _ => rfl
  | l :: L, h => by
      simp only [List.flatten_cons, List.length_append, h l (by simp),
        flatten_length16 L (fun x hx => h x (by simp [hx])), List.length_cons]
      omega

theorem gcmKeystream_length {keyBytes : List Nat} (hkey : keyBytes.length = 32) (j0 len : Nat) :
    (gcmKeystream keyBytes j0 len).length = len := by
  have hlen : (((List.range (len / 16 + 1)).map
      (fun i => encryptBlock keyBytes (natToBytesBE 16 (inc32By j0 (i + 1))))).flatten).length =
      16 * (len / 16 + 1) := by
    rw [flatten_length16]
    · simp
    · intro x hx
      simp only [List.mem_map, List.mem_range] at hx
      obtain ⟨i, _, rfl⟩ := hx
      exact encryptBlock_length hkey (natToBytesBE_length 16 _)
  simp only [gcmKeystream, List.length_take, hlen]
  omega

theorem gcmKeystream_lt (keyBytes : List Nat) (j0 len : Nat) :
    ∀ x ∈ gcmKeystream keyBytes j0 len, x < 256 := by
  intro x hx
  simp only [gcmKeystream] at hx
  have hx2 := List.mem_of_mem_take hx
  simp only [List.mem_flatten, List.mem_map, List.mem_range] at hx2
  obtain ⟨l, ⟨i, _, rfl⟩, hxl⟩ := hx2
  exact encryptBlock_lt _ _ x hxl

theorem gcmCrypt_length {keyBytes : List Nat} (hkey : keyBytes.length = 32) (iv data : List Nat) :
    (gcmCrypt keyBytes iv data).length = data.length := by
  simp [gcmCrypt, gcmKeystream_length hkey]

theorem gcmCrypt_lt {keyBytes : List Nat} (iv data : List Nat)
    (hdata : ∀ b ∈ data, b < 256) : ∀ x ∈ gcmCrypt keyBytes iv data, x < 256 := by
  intro x hx
  exact zipWith_xor_lt _ _ hdata (gcmKeystream_lt _ _ _) x hx

theorem gcmCrypt_involution {keyBytes : List Nat} (hkey : keyBytes.length = 32)
    (iv p : List Nat) : gcmCrypt keyBytes iv (gcmCrypt keyBytes iv p) = p := by
  simp only [gcmCrypt]
  rw [List.length_zipWith, gcmKeystream_length hkey, Nat.min_self]
  exact zipWith_xor_cancel p _ (by rw [gcmKeystream_length hkey])

theorem gcmTag_length (keyBytes iv ct : List Nat) : (gcmTag keyBytes iv ct).length = 16 :=
  natToBytesBE_length 16 _

theorem gcmTag_lt (keyBytes iv ct : List Nat) : ∀ b ∈ gcmTag keyBytes iv ct, b < 256 :=
  natToBytesBE_lt 16 _

/-- Successful path of decryptInner: when the three fields decode to an IV,
a ciphertext, and exactly the 16-byte GCM tag of that ciphertext, decryption
returns the CTR transform of the ciphertext. -/
theorem decryptInner_ok_core {k ivBytes ct si sc stg : List Nat} {md : Option Metadata}
    (hiv : b64decode si = ivBytes) (hivne : ivBytes ≠ [])
    (hct : b64decode sc = ct)
    (htag : b64decode stg = gcmTag (deriveKey k) ivBytes ct) :
    decryptInner ⟨some si, some sc, some stg, md⟩ k =
      .ok (gcmCrypt (deriveKey k) ivBytes ct) := by
  have hlen : (gcmTag (deriveKey k) ivBytes ct).length = 16 := gcmTag_length _ _ _
  have htake : (gcmTag (deriveKey k) ivBytes ct).take 16 = gcmTag (deriveKey k) ivBytes ct := by
    conv in List.take 16 _ => rw [← hlen]
    exact List.take_length _
  simp only [decryptInner, hiv, hct, htag, hlen, htake]
  rw [if_neg (by simp [hivne]), if_pos (by decide)]
  simp

/-- C1: decrypting the triple produced by encrypt with the same raw key
returns exactly the plaintext. The plaintext and the random IV are byte
lists (all entries below 256); the IV has the 12 bytes randomBytes(12)
produces. -/
theorem C1_decrypt_encrypt_roundtrip (p rawKey iv : List Nat) (hp : ∀ b ∈ p, b < 256)
    (hiv : ∀ b ∈ iv, b < 256) (hivlen : iv.length = 12) :
    decrypt (encrypt p rawKey iv) rawKey = .ok p := by
  have hkey : (deriveKey rawKey).length = 32 := sha256_length _
  have hct : ∀ b ∈ gcmCrypt (deriveKey rawKey) iv p, b < 256 := gcmCrypt_lt _ _ hp
  have hivne : iv ≠ [] := by
    intro h
    rw [h] at hivlen
    simp at hivlen
  have h1 : decryptInner (encrypt p rawKey iv) rawKey =
      .ok (gcmCrypt (deriveKey rawKey) iv (gcmCrypt (deriveKey rawKey) iv p)) := by
    simp only [encrypt]
    exact decryptInner_ok_core (b64_roundtrip iv hiv) hivne
      (b64_roundtrip _ hct) (b64_roundtrip _ (gcmTag_lt _ _ _))
  rw [decrypt, h1, gcmCrypt_involution hkey]

/-- Witness for C1 at a concrete plaintext, key, and IV. -/
theorem C1_decrypt_encrypt_roundtrip_witness :
    decrypt (encrypt [72, 105] kB ivB) kB = .ok [72, 105] :=
  C1_decrypt_encrypt_roundtrip [72, 105] kB ivB (by decide) (by decide) (by decide)

set_option maxRecDepth 40000 in
/-- C2, counterexample: the claim says flipping any byte of the content or
tag field makes decrypt fail. Here one bit of one byte of the base64 content
of a concrete envelope is flipped (char 1, 65 xor 4 = 69); the flip lands in
padding bits the base64 decoder discards, so decrypt succeeds and returns
the original plaintext. -/
theorem C2_tamper_counterexample :
    e0contentFlip.content ≠ e0.content ∧ decrypt e0contentFlip kB = .ok [131] := by
  constructor
  · decide
  · decide

/-- C2, amended: a flip of a content or tag byte does not always make
decrypt fail; what holds is: (A) modifications of the base64 fields that
leave the decoded bytes unchanged decrypt successfully to exactly the
original plaintext, never an altered one; (B) a modification that changes
the decoded 16-byte tag while iv and content are unchanged always fails,
with the generic wrapped message; (C) decrypt returns a plaintext only when
the decoded stored tag equals the recomputed GCM tag of the received
ciphertext (truncated to the stored length), and that plaintext is the CTR
transform of the received ciphertext. -/
theorem C2_tamper_amended :
    (∀ (p rawKey iv : List Nat) (e2 : EncryptedData) (si sc stg : List Nat),
      (∀ b ∈ p, b < 256) → (∀ b ∈ iv, b < 256) → iv.length = 12 →
      e2.iv = some si → e2.content = some sc → e2.tag = some stg →
      some (b64decode si) = ((encrypt p rawKey iv).iv).map b64decode →
      some (b64decode sc) = ((encrypt p rawKey iv).content).map b64decode →
      some (b64decode stg) = ((encrypt p rawKey iv).tag).map b64decode →
      decrypt e2 rawKey = .ok p) ∧
    (∀ (p rawKey iv : List Nat) (e2 : EncryptedData) (stg : List Nat),
      (∀ b ∈ p, b < 256) → (∀ b ∈ iv, b < 256) → iv.length = 12 →
      e2.iv = (encrypt p rawKey iv).iv → e2.content = (encrypt p rawKey iv).content →
      e2.tag = some stg → (b64decode stg).length = 16 →
      b64decode stg ≠ gcmTag (deriveKey rawKey) iv (gcmCrypt (deriveKey rawKey) iv p) →
      decrypt e2 rawKey = .error (wrapMsg authFailMsg)) ∧
    (∀ (e2 : EncryptedData) (rawKey pt : List Nat), decrypt e2 rawKey = .ok pt →
      ∃ si sc stg, e2.iv = some si ∧ e2.content = some sc ∧ e2.tag = some stg ∧
        validTagLength (b64decode stg).length = true ∧
        b64decode stg =
          (gcmTag (deriveKey rawKey) (b64decode si) (b64decode sc)).take (b64decode stg).length ∧
        pt = gcmCrypt (deriveKey rawKey) (b64decode si) (b64decode sc)) := by
  refine ⟨?_, ?_, ?_⟩
  · intro p rawKey iv e2 si sc stg hp hivb hivlen h1 h2 h3 d1 d2 d3
    simp only [encrypt, Option.map_some'] at d1 d2 d3
    rw [b64_roundtrip iv hivb] at d1
    rw [b64_roundtrip _ (gcmCrypt_lt _ _ hp)] at d2
    rw [b64_roundtrip _ (gcmTag_lt _ _ _)] at d3
    have hivne : iv ≠ [] := by
      intro h
      rw [h] at hivlen
      simp at hivlen
    obtain ⟨i, c, t, m⟩ := e2
    simp only at h1 h2 h3
    subst h1 h2 h3
    have hkey : (deriveKey rawKey).length = 32 := sha256_length _
    rw [decrypt, decryptInner_ok_core (Option.some.inj d1) hivne
      (Option.some.inj d2) (Option.some.inj d3), gcmCrypt_involution hkey]
  · intro p rawKey iv e2 stg hp hivb hivlen h1 h2 h3 hlen16 hne
    have hivne : iv ≠ [] := by
      intro h
      rw [h] at hivlen
      simp at hivlen
    obtain ⟨i, c, t, m⟩ := e2
    simp only [encrypt] at h1 h2
    simp only at h3
    subst h1 h2 h3
    have dct : b64decode (b64encode (gcmCrypt (deriveKey rawKey) iv p)) =
        gcmCrypt (deriveKey rawKey) iv p := b64_roundtrip _ (gcmCrypt_lt _ _ hp)
    have div : b64decode (b64encode iv) = iv := b64_roundtrip iv hivb
    have htake : (gcmTag (deriveKey rawKey) iv (gcmCrypt (deriveKey rawKey) iv p)).take
        (b64decode stg).length = gcmTag (deriveKey rawKey) iv (gcmCrypt (deriveKey rawKey) iv p) := by
      rw [hlen16]
      conv in List.take 16 _ => rw [← gcmTag_length (deriveKey rawKey) iv
        (gcmCrypt (deriveKey rawKey) iv p)]
      exact List.take_length _
    simp only [decrypt, decryptInner, div, dct, htake]
    rw [if_neg (by simp [hivne]), if_pos (by rw [hlen16]; decide), if_neg hne]
  · intro e2 rawKey pt h
    obtain ⟨i, c, t, m⟩ := e2
    cases hd : decryptInner ⟨i, c, t, m⟩ rawKey with
    | error msg =>
      rw [decrypt, hd] at h
      exact absurd h (by simp)
    | ok x =>
      rw [decrypt, hd] at h
      replace h : x = pt := by simpa using h
      subst h
      cases i with
      | none => simp [decryptInner] at hd
      | some si =>
        cases t with
        | none => simp [decryptInner] at hd
        | some stg =>
          cases c with
          | none =>
            simp only [decryptInner] at hd
            split_ifs at hd
          | some sc =>
            refine ⟨si, sc, stg, rfl, rfl, rfl, ?_⟩
            simp only [decryptInner] at hd
            split_ifs at hd with h0 h1 h2
            simp only [Except.ok.injEq] at hd
            exact ⟨by simpa using h1, h2, hd.symm⟩
set_option maxRecDepth 100000 in
/-- Witness for the amended C2 at a concrete envelope: flipping one bit of
the first tag character changes the decoded tag, and decrypt fails with the
generic wrapped message. -/
theorem C2_tamper_amended_witness : decrypt e0tagFlip kB = .error (wrapMsg authFailMsg) :=
  C2_tamper_amended.2.1 [131] kB ivB e0tagFlip
    (flipByte ((encrypt [131] kB ivB).tag.getD []) 0 2)
    (by decide) (by decide) (by decide) (by decide) (by decide) (by decide)
    (by decide) (by decide)

set_option maxRecDepth 100000 in
/-- C3, counterexample: the claim says every decrypt failure carries one
identical generic message. Two concrete failures from different checks
carry different messages: a tag field of four invalid base64 characters
decodes to 0 bytes and fails the tag-length check of setAuthTag, while a
tag with one flipped bit fails authentication in final; the wrapped
messages differ because the template interpolates the inner message. -/
theorem C3_message_counterexample :
    decrypt e0tagJunk kB = .error (wrapMsg "Invalid authentication tag length: 0") ∧
    decrypt e0tagFlip kB = .error (wrapMsg authFailMsg) ∧
    wrapMsg "Invalid authentication tag length: 0" ≠ wrapMsg authFailMsg := by
  refine ⟨by decide, by decide, by decide⟩

/-- C3, amended: every decrypt failure is wrapped in the one fixed template
of the catch block (so the tail of the message is generic), and on the
cipher path proper — decoded iv nonempty, decoded tag of a valid length,
all fields present — every failure carries exactly the same full generic
message, whether the cause is a wrong key or tampered data; but failures of
the structural checks (such as an invalid tag length) interpolate a
different inner message, so the full message is not identical across all
checks, and the error is a plain wrapped Error, not a dedicated
DecryptionError kind. -/
theorem C3_error_message_amended :
    (∀ (e2 : EncryptedData) (rawKey : List Nat) (m : String),
      decrypt e2 rawKey = .error m → ∃ inner, m = wrapMsg inner) ∧
    (∀ (e2 : EncryptedData) (rawKey : List Nat) (si sc stg : List Nat),
      e2.iv = some si → e2.content = some sc → e2.tag = some stg →
      b64decode si ≠ [] → validTagLength (b64decode stg).length = true →
      (∃ pt, decrypt e2 rawKey = .ok pt) ∨ decrypt e2 rawKey = .error (wrapMsg authFailMsg)) := by
  constructor
  · intro e2 rawKey m h
    cases hd : decryptInner e2 rawKey with
    | ok x =>
      rw [decrypt, hd] at h
      exact absurd h (by simp)
    | error msg =>
      rw [decrypt, hd] at h
      exact ⟨msg, by simpa using h.symm⟩
  · intro e2 rawKey si sc stg h1 h2 h3 hne hvalid
    obtain ⟨i, c, t, m⟩ := e2
    simp only at h1 h2 h3
    subst h1 h2 h3
    have hlen0 : ¬ ((b64decode si).length = 0) := by
      intro h
      exact hne (List.length_eq_zero.mp h)
    by_cases htag : b64decode stg =
        (gcmTag (deriveKey rawKey) (b64decode si) (b64decode sc)).take (b64decode stg).length
    · left
      refine ⟨gcmCrypt (deriveKey rawKey) (b64decode si) (b64decode sc), ?_⟩
      have hinner : decryptInner ⟨some si, some sc, some stg, m⟩ rawKey =
          .ok (gcmCrypt (deriveKey rawKey) (b64decode si) (b64decode sc)) := by
        simp only [decryptInner]
        rw [if_neg hlen0, if_pos hvalid, if_pos htag]
      rw [decrypt, hinner]
    · right
      have hinner : decryptInner ⟨some si, some sc, some stg, m⟩ rawKey =
          .error authFailMsg := by
        simp only [decryptInner]
        rw [if_neg hlen0, if_pos hvalid, if_neg htag]
      rw [decrypt, hinner]

set_option maxRecDepth 100000 in
/-- Witness for the amended C3 at a concrete envelope and a wrong key: on
the cipher path the failure message is exactly the one generic wrapped
message. -/
theorem C3_error_message_amended_witness :
    (∃ pt, decrypt e0 kB2 = .ok pt) ∨ decrypt e0 kB2 = .error (wrapMsg authFailMsg) :=
  C3_error_message_amended.2 e0 kB2 (b64encode ivB)
    ((encrypt [131] kB ivB).content.getD []) ((encrypt [131] kB ivB).tag.getD [])
    (by decide) (by decide) (by decide) (by decide) (by decide)

set_option maxRecDepth 100000 in
/-- C4, counterexample: the claim says a current-version envelope without a
tag fails with a structural MalformedEnvelopeError rather than an opaque
cipher-layer error. No such error exists in the code: on a concrete
envelope with the tag field absent, decrypt fails with the generic wrapped
cipher-layer message, the inner cause being the TypeError of Buffer.from
applied to undefined. -/
theorem C4_missing_tag_counterexample :
    decrypt e0noTag kB = .error (wrapMsg bufferFromArgTypeError) := by
  decide

/-- C4, amended: when the tag field is absent decrypt always fails — it
never silently succeeds — but the failure is the generic wrapped
cipher-layer error carrying the Buffer.from TypeError, not a structural
MalformedEnvelopeError (no structural validation of the envelope exists in
the code). -/
theorem C4_missing_tag_amended (e2 : EncryptedData) (rawKey : List Nat)
    (h : e2.tag = none) : decrypt e2 rawKey = .error (wrapMsg bufferFromArgTypeError) := by
  obtain ⟨i, c, t, m⟩ := e2
  simp only at h
  subst h
  cases i <;> rfl

/-- Witness for the amended C4 at a concrete envelope without a tag. -/
theorem C4_missing_tag_amended_witness :
    decrypt ⟨some [65, 66, 67, 68], some [65, 65, 65, 65], none, none⟩ [1] =
      .error (wrapMsg bufferFromArgTypeError) :=
  C4_missing_tag_amended ⟨some [65, 66, 67, 68], some [65, 65, 65, 65], none, none⟩ [1] rfl

/-- C5, counterexample: the claim says get returns undefined whenever the
walk traverses through a non-container (scalar) value. On the example
document of the specification itself, get with data.api.key.length
traverses through the string value abc and returns its JS length property,
3 — not undefined. -/
theorem C5_get_scalar_counterexample :
    sopsGet (.ok docExample) "data.api.key.length" = .ok (some (.num 3)) ∧
    sopsGet (.ok docExample) "data.api.key.length" ≠ .ok none := by
  constructor
  · rfl
  · intro h
    rw [show sopsGet (.ok docExample) "data.api.key.length" = .ok (some (.num 3)) from rfl] at h
    simp at h

/-- C5, amended: get splits the dot path and walks the decrypted document;
on the example document the present path returns the value and the missing
path returns undefined without an error; walking from a missing value
stays undefined, and walking into null, a number, or a boolean gives
undefined, as does walking into a string at any key other than length or a
character index. But traversal through a scalar is not always undefined:
JS strings (and arrays) carry data-valued properties, so a segment naming
the length of a string returns that number. -/
theorem C5_get_dot_path_amended :
    sopsGet (.ok docExample) "data.api.key" = .ok (some (.str "abc")) ∧
    sopsGet (.ok docExample) "data.not.present" = .ok none ∧
    sopsGet (.ok docExample) "data.api.key.length" = .ok (some (.num 3)) ∧
    (∀ (key : String) (data : Json),
      sopsGet (.ok data) key = .ok (jsWalk (some data) (splitDot key))) ∧
    (∀ ps : List String, ps ≠ [] → jsWalk none ps = none) ∧
    (∀ (p : String) (ps : List String), jsWalk (some .null) (p :: ps) = none) ∧
    (∀ (n : Int) (p : String) (ps : List String), jsWalk (some (.num n)) (p :: ps) = none) ∧
    (∀ (b : Bool) (p : String) (ps : List String), jsWalk (some (.bool b)) (p :: ps) = none) ∧
    (∀ (s : String) (p : String) (ps : List String), (p == "length") = false →
      strToIndex p = none → jsWalk (some (.str s)) (p :: ps) = none) := by
  have hnone : ∀ ps : List String, jsWalk none ps = none := by
    intro ps
    cases ps <;> rfl
  refine ⟨rfl, rfl, rfl, fun key data => rfl, fun ps _ => hnone ps,
    fun p ps => rfl, ?_, ?_, ?_⟩
  · intro n p ps
    simpa [jsWalk, jsIndex] using hnone ps
  · intro b p ps
    simpa [jsWalk, jsIndex] using hnone ps
  · intro s p ps hlen hidx
    have hp : ¬ (p = "length") := by
      intro h
      rw [h] at hlen
      simp at hlen
    simpa [jsWalk, jsIndex, hp, hidx] using hnone ps

/-- Witness for the amended C5 at concrete inputs: a nonempty remaining
path from a missing value, and a string accessed at a key that is neither
length nor a character index. -/
theorem C5_get_dot_path_amended_witness :
    jsWalk none ["a"] = none ∧ jsWalk (some (.str "abc")) ["x", "y"] = none :=
  ⟨C5_get_dot_path_amended.2.2.2.2.1 ["a"] (by decide),
   C5_get_dot_path_amended.2.2.2.2.2.2.2.2 "abc" "x" ["y"] (by decide) (by decide)⟩

/-- C6: initialize on a path whose key file exists fails with the
key-already-exists error and returns the filesystem unchanged, so the
existing key file keeps its contents. -/
theorem C6_initialize_no_overwrite (fs : FileSys) (keyPath freshKey : String)
    (h : existsSync fs keyPath = true) :
    (sopsInitialize fs keyPath freshKey).1 =
      .error ("Key file already exists at " ++ keyPath) ∧
    (sopsInitialize fs keyPath freshKey).2 = fs := by
  simp [sopsInitialize, h]

/-- Witness for C6 on a concrete filesystem with an existing key file. -/
theorem C6_initialize_no_overwrite_witness :
    (sopsInitialize fs6 "/w/.sops-key" "FRESH").1 =
      .error ("Key file already exists at /w/.sops-key") ∧
    (sopsInitialize fs6 "/w/.sops-key" "FRESH").2 = fs6 :=
  C6_initialize_no_overwrite fs6 "/w/.sops-key" "FRESH" (by decide)

/-- C7: deriveKey is pure and deterministic — two applications to the same
raw key give the same bytes — and its output has exactly 32 bytes. -/
theorem C7_deriveKey_deterministic_32 (rawKey : List Nat) :
    deriveKey rawKey = deriveKey rawKey ∧ (deriveKey rawKey).length = 32 :=
  ⟨rfl, sha256_length rawKey⟩

/-- Lookup after an entry-wise conditional update of the matching path. -/
theorem find_update (entries : List (String × FileEntry)) (p : String)
    (f : FileEntry → FileEntry) :
    ((entries.map (fun ent => if ent.1 == p then (ent.1, f ent.2) else ent)).find?
        (fun e => e.1 == p)).map Prod.snd =
      ((entries.find? (fun e => e.1 == p)).map Prod.snd).map f := by
  induction entries with
  | nil => rfl
  | cons hd tl ih =>
    by_cases h : hd.1 = p
    · simp [List.find?_cons, h]
    · have hb : (hd.1 == p) = false := by simp [h]
      simp only [List.map_cons, List.find?_cons, hb, if_false]
      simpa [hb] using ih

/-- Lookup of the written path after writeFileSync: the new content, with
the previous mode kept or the default mode for a new file. -/
theorem lookup_writeFileSync_self (fs : FileSys) (p c : String) :
    ∃ m, (writeFileSync fs p c).lookup p = some ⟨c, m⟩ := by
  unfold writeFileSync
  cases hl : fs.lookup p with
  | none =>
    exact ⟨0o644, by simp [FileSys.lookup, List.find?_cons]⟩
  | some fe =>
    refine ⟨fe.mode, ?_⟩
    simp only [FileSys.lookup] at hl ⊢
    rw [find_update fs.entries p (fun _ => ⟨c, fe.mode⟩), hl, Option.map_some']

/-- Lookup of the target path after chmodSync. -/
theorem lookup_chmodSync_self (fs : FileSys) (p : String) (m : Nat) :
    (chmodSync fs p m).lookup p = (fs.lookup p).map (fun fe => ⟨fe.content, m⟩) := by
  simp only [chmodSync, FileSys.lookup]
  rw [find_update fs.entries p (fun fe => ⟨fe.content, m⟩)]

/-- C9: a successful saveKey leaves the key file with mode 0o600, whose
permission bits contain no group or other access; and for an existing file
hasSecurePermissions returns true exactly when no group/other permission
bits are set on its mode. -/
theorem C9_saveKey_permissions :
    (∀ (fs : FileSys) (key keyPath : String),
      ∃ fe, (saveKey key keyPath fs).lookup keyPath = some fe ∧
        fe.mode = 0o600 ∧ fe.mode &&& 0o077 = 0) ∧
    (∀ (fs : FileSys) (p : String) (fe : FileEntry), fs.lookup p = some fe →
      (hasSecurePermissions fs p = true ↔ fe.mode &&& 0o077 = 0)) := by
  constructor
  · intro fs key keyPath
    obtain ⟨m, hm⟩ := lookup_writeFileSync_self fs keyPath key
    refine ⟨⟨key, 0o600⟩, ?_, rfl, show (0o600 : Nat) &&& 0o077 = 0 by decide⟩
    simp only [saveKey]
    rw [lookup_chmodSync_self, hm, Option.map_some']
  · intro fs p fe h
    simp only [hasSecurePermissions, h]
    have hand : (fe.mode &&& 0o777) &&& 0o077 = fe.mode &&& 0o077 := by
      rw [Nat.and_assoc, show (0o777 &&& 0o077 : Nat) = 0o077 from by decide]
    rw [hand]
    simp

/-- Witness for C9 on a concrete filesystem, both for saveKey and for the
permission predicate of an existing file. -/
theorem C9_saveKey_permissions_witness :
    (∃ fe, (saveKey "KEY" "/w/k" (FileSys.mk [])).lookup "/w/k" = some fe ∧
      fe.mode = 0o600 ∧ fe.mode &&& 0o077 = 0) ∧
    (hasSecurePermissions fs6 "/w/.sops-key" = true ↔
      (FileEntry.mk "EXISTING" 0o600).mode &&& 0o077 = 0) :=
  ⟨C9_saveKey_permissions.1 (FileSys.mk []) "KEY" "/w/k",
   C9_saveKey_permissions.2 fs6 "/w/.sops-key" ⟨"EXISTING", 0o600⟩ (by decide)⟩

/-- C10: decrypt reads only the iv, content, and tag fields, so two
envelopes agreeing on those three fields — whatever their metadata, present
or absent — decrypt identically under every key; metadata is not
authenticated and can never cause a decryption failure. -/
theorem C10_metadata_ignored (e1 e2 : EncryptedData) (rawKey : List Nat)
    (hiv : e1.iv = e2.iv) (hc : e1.content = e2.content) (ht : e1.tag = e2.tag) :
    decrypt e1 rawKey = decrypt e2 rawKey := by
  obtain ⟨i1, c1, t1, m1⟩ := e1
  obtain ⟨i2, c2, t2, m2⟩ := e2
  simp only at hiv hc ht
  subst hiv hc ht
  rfl

/-- Witness for C10: an envelope with metadata and the same envelope
without it decrypt identically. -/
theorem C10_metadata_ignored_witness : decrypt e10a [1] = decrypt e10b [1] :=
  C10_metadata_ignored e10a e10b [1] rfl rfl rfl

/-- C8: the claim says the transient plaintext file of rotate is removed on
every path. On the success path it is removed, but the cleanup is not in a
finally block: when the encrypt step fails after the temp file was written
(here: the new key file named on the command line does not exist), the
rotate action returns with temp_rotation.json still on disk, holding the
decrypted plaintext — contradicting the claim. -/
theorem C8_rotate_temp_left_on_failure :
    (rotateCli fs8ok opts8ok "FRESH" "/w/.sops-key").1 = .ok () ∧
    existsSync (rotateCli fs8ok opts8ok "FRESH" "/w/.sops-key").2 "/w/temp_rotation.json" = false ∧
    (rotateCli fs8bad opts8bad "FRESH" "/w/.sops-key").1 =
      .error "Failed to encrypt file: Key file not found at /w/missing.key. Run initialize() first." ∧
    existsSync (rotateCli fs8bad opts8bad "FRESH" "/w/.sops-key").2 "/w/temp_rotation.json" = true := by
  refine ⟨by decide, by decide, by decide, by decide⟩

end NodeSops
